import Mathlib

/-!
Verification of the agentic-platform repository's first-party logic.

The Python sources are shallowly embedded: pure string manipulation is
translated into Lean functions over `String` / `List Char`; calls into
external SDKs (the Strands coordinator agent, `bedrock.converse`,
`boto3` retrieval, the LangGraph chat service, the file system) are
modelled as explicit oracle parameters or `Except`-valued inputs; Python
exceptions are modelled with `Except`; Python truthiness of strings and
options is modelled explicitly.
-/

/-- Python-style whitespace test, restricted to the ASCII whitespace
characters recognised by `\s` (the repository only manipulates ASCII
markdown and code fences, so the unicode cases of Python `\s` are not
modelled). -/
def pyIsSpace (c : Char) : Bool :=
  c = ' ' || c = '\t' || c = '\n' || c = '\r' || c = '\x0b' || c = '\x0c'

/-- Occurrence of `needle` as a contiguous subsequence of `hay`
(Python `needle in hay` on strings). -/
def containsSeq (needle : List Char) : List Char → Bool
  | [] => needle.isPrefixOf []
  | c :: cs => needle.isPrefixOf (c :: cs) || containsSeq needle cs

/-- Python `str.lower`, modelled characterwise with `Char.toLower`
(agrees with Python on ASCII, which is all the keyword tables use). -/
def strLower (s : String) : String :=
  s.map Char.toLower

/-- Python `needle in hay` on strings. -/
def pyInStr (needle hay : String) : Bool :=
  containsSeq needle.data hay.data

/-- `os.path.basename` for the slash-separated paths used by the
summary script: everything after the last `/`. -/
def basename (p : String) : String :=
  String.mk ((p.data.reverse.takeWhile (fun c => c ≠ '/')).reverse)

/-- Python `opt or dflt` for an optional string: `None` and `""` are
falsy and yield the default. -/
def orDefaultStr (o : Option String) (dflt : String) : String :=
  match o with
  | some s => if s = "" then dflt else s
  | none => dflt

/-- Python truthiness of an optional string (`if x:`). -/
def optTruthy (o : Option String) : Bool :=
  match o with
  | some s => s ≠ ""
  | none => false

/-! ## Core data model

The pydantic models in `agentic_platform/core/models` are not part of
the provided sources (only their callers are), so they are modelled
from the spec. -/

/-- Modelled from the spec: a typed content block of a message ("message
with role and list of typed content blocks"); only the text variant is
manipulated by the code under verification, other block kinds are
collapsed into one constructor. -/
inductive ContentBlock where
  | text (t : String)
  | other
deriving DecidableEq, Repr

/-- Modelled from the spec: a message with a role and a list of typed
content blocks. -/
structure Message where
  role : String
  content : List ContentBlock
deriving DecidableEq, Repr

/-- Modelled from the spec: `Message.get_text_content` returns the text
content block consumed by callers ("has at most one text content block
consumed by callers"): the first text block, if any. -/
def Message.get_text_content (m : Message) : Option String :=
  m.content.findSome? fun b =>
    match b with
    | .text t => some t
    | .other => none

/-- Modelled from the spec: `Message.from_text` builds a message with a
single text content block. -/
def Message.from_text (role t : String) : Message :=
  ⟨role, [.text t]⟩

/-- Modelled from the spec: `Message.text`, the text of the message's
text content block (empty when there is none). -/
def Message.text (m : Message) : String :=
  (m.get_text_content).getD ""

/-- Modelled from the spec: the request envelope (a message, an optional
session identifier, and a streaming flag; `stream` unset is modelled as
`false`, the pydantic default). -/
structure AgenticRequest where
  message : Message
  session_id : Option String
  stream : Bool
deriving DecidableEq, Repr

/-- Modelled from the spec: `AgenticRequest.latest_user_text`, the text
of the latest user message (here the single request message when its
role is `user`). -/
def AgenticRequest.latest_user_text (r : AgenticRequest) : Option String :=
  if r.message.role = "user" then r.message.get_text_content else none

/-- Modelled from the spec: a free-form metadata value (string or list
of strings, the shapes the embedded code stores). -/
inductive MetaValue where
  | str (s : String)
  | list (l : List String)
deriving DecidableEq, Repr

/-- Modelled from the spec: the response envelope, "a response wrapping
a message, a session identifier, and free-form metadata". -/
structure AgenticResponse where
  message : Message
  session_id : Option String
  metadata : List (String × MetaValue)
deriving DecidableEq, Repr

/-- Modelled from the spec: a streaming event, "an incremental unit
(text delta, error, completion) emitted by the agent framework"; the
error variant is the `ErrorEvent` with a session identifier and an
error string. -/
inductive StreamEvent where
  | textDelta (session_id : String) (delta : String)
  | errorEvent (session_id : String) (error : String)
  | completion (session_id : String)
deriving DecidableEq, Repr

/-! ## `StrandsMultiAgentChatAgent._determine_agent_strategy`
(`multi_agent_chat_agent.py`, lines 95-117) -/

def research_keywords : List String :=
  ["research", "find", "search", "information", "facts", "data", "study", "investigate"]

def analysis_keywords : List String :=
  ["analyze", "calculate", "solve", "problem", "math", "statistics", "logic", "reasoning"]

def creative_keywords : List String :=
  ["create", "write", "story", "creative", "brainstorm", "innovative", "design", "imagine"]

/-- Embedding of `_determine_agent_strategy`: lowercase the query, append
a label per keyword category whose keywords hit, default to
`coordinator`, and join with `", "`. -/
def determine_agent_strategy (query : String) : String :=
  let query_lower := strLower query
  let l1 : List String :=
    if research_keywords.any (fun k => pyInStr k query_lower) then ["research"] else []
  let l2 : List String :=
    if analysis_keywords.any (fun k => pyInStr k query_lower) then l1 ++ ["analysis"] else l1
  let l3 : List String :=
    if creative_keywords.any (fun k => pyInStr k query_lower) then l2 ++ ["creative"] else l2
  let agents_needed := if l3 = [] then ["coordinator"] else l3
  String.intercalate ", " agents_needed

/-- The claim's description of the strategy matcher: the fixed category
order, each category included exactly when one of its keywords occurs in
the lowercased query, default label `coordinator`. -/
def strategy_categories : List (String × List String) :=
  [("research", research_keywords),
   ("analysis", analysis_keywords),
   ("creative", creative_keywords)]

def strategySpec (query : String) : String :=
  let query_lower := strLower query
  let matched :=
    (strategy_categories.filter fun c => c.2.any fun k => pyInStr k query_lower).map Prod.fst
  if matched = [] then "coordinator" else String.intercalate ", " matched

/-! ## `StrandsMultiAgentChatAgent.invoke` and `invoke_stream`
(`multi_agent_chat_agent.py`, lines 119-187)

The coordinator agent of the external Strands framework is modelled as
an oracle `String → String` (synchronous call, returning `str(result)`)
or as a stream `String → List StrandsEvent × Option String` (the events
yielded by `stream_async` before an optional exception whose
`str(e)` is the second component). The `StrandsStreamingConverter`
(its module is not part of the provided sources) is modelled as an
oracle turning one framework event into a list of platform events. -/

/-- Framework streaming events are not interpreted by the embedded
code; model them as opaque tokens. -/
structure StrandsEvent where
  payload : String
deriving DecidableEq, Repr

/-- Embedding of `StrandsMultiAgentChatAgent.invoke`: raising
`ValueError` is `Except.error`. -/
def agentInvoke (coordinator : String → String) (request : AgenticRequest) :
    Except String AgenticResponse :=
  match request.message.get_text_content with
  | none => .error "No text content found in request message"
  | some query =>
      let strategy := determine_agent_strategy query
      let enhanced_query := "[Multi-Agent Strategy: " ++ strategy ++ "] " ++ query
      let result := coordinator enhanced_query
      .ok
        { message := { role := "assistant", content := [.text result] }
          session_id := some (orDefaultStr request.session_id "default")
          metadata :=
            [("agent_type", .str "strands_multi_agent_chat"),
             ("strategy_used", .str strategy),
             ("agents_available", .list ["coordinator", "research", "analysis", "creative"])] }

/-- Embedding of `StrandsMultiAgentChatAgent.invoke_stream`: the
returned list is the sequence of events the async generator yields.
`coordStream` gives the framework events produced for the enhanced
query together with an optional exception interrupting the stream after
them. -/
def agentInvokeStream (convert : StrandsEvent → List StreamEvent)
    (coordStream : String → List StrandsEvent × Option String)
    (request : AgenticRequest) : List StreamEvent :=
  let session_id := orDefaultStr request.session_id "default"
  match request.message.get_text_content with
  | none => [.errorEvent session_id "No text content found in request message"]
  | some query =>
      let strategy := determine_agent_strategy query
      let enhanced_query := "[Multi-Agent Strategy: " ++ strategy ++ "] " ++ query
      let (events, exc) := coordStream enhanced_query
      (events.map convert).flatten ++
        (match exc with
         | none => []
         | some e => [.errorEvent session_id e])

/-! ## `multi_agent_chat_controller.py` (lines 16-26) -/

/-- Embedding of the controller coroutine `invoke`; the module-level
agent's `invoke` is the oracle parameter `agent`. -/
def controllerInvoke (agent : AgenticRequest → Except String AgenticResponse)
    (request : AgenticRequest) : Except String AgenticResponse :=
  if request.stream then .error "Streaming requests should use the /stream endpoint"
  else agent request

/-! ## `ChatController` (`langgraph_chat/chat_controller.py`) -/

/-- Splitting of a character list at the first occurrence of `needle`:
returns the part strictly before and the part strictly after the
occurrence. -/
def splitFirst (needle : List Char) : List Char → Option (List Char × List Char)
  | [] => if needle.isPrefixOf [] then some ([], []) else none
  | c :: cs =>
      if needle.isPrefixOf (c :: cs) then some ([], (c :: cs).drop needle.length)
      else match splitFirst needle cs with
        | some (pre, post) => some (c :: pre, post)
        | none => none

/-- Python `str.strip` over the ASCII whitespace model. -/
def pyStrip (l : List Char) : List Char :=
  ((l.dropWhile pyIsSpace).reverse.dropWhile pyIsSpace).reverse

/-- Embedding of `ChatController.extract_response`: the non-greedy
DOTALL search for `<response>(.*?)</response>` takes the text between
the first `<response>` and the first `</response>` after it; when the
pattern has no match the apology fallback is returned. -/
def extract_response (text : String) : String :=
  match splitFirst "<response>".data text.data with
  | none => "I\x27m sorry, something went wrong. Please try again."
  | some (_, afterOpen) =>
      match splitFirst "</response>".data afterOpen with
      | none => "I\x27m sorry, something went wrong. Please try again."
      | some (mid, _) => String.mk (pyStrip mid)

/-- Modelled from the spec: the prompt object built from the inputs
dictionary; the chat workflow consuming it is external, so only the
inputs are recorded. -/
structure ChatPromptInputs where
  chat_history : String
  message : String
deriving DecidableEq, Repr

/-- Embedding of `ChatController.chat`; the LangGraph chat service
`chat_service.run` is the oracle parameter `run`. -/
def chatControllerChat (run : ChatPromptInputs → Message) (request : AgenticRequest) :
    AgenticResponse :=
  let user_text := orDefaultStr request.latest_user_text "Hello"
  let inputs : ChatPromptInputs := { chat_history := "", message := user_text }
  let response := run inputs
  let response_text := extract_response response.text
  let response_message := Message.from_text "assistant" response_text
  { message := response_message
    session_id := request.session_id
    metadata := [] }

/-! ## Error-handling wrappers of the summary script and the RAG tool -/

/-- Configuration of `generate_summaries.py` (the fields the embedded
code reads from `config.yml`). -/
structure SummaryConfig where
  file_prefix : String
  out_directory : String
  model_id : String
  model_name : String
deriving Repr

/-- Embedding of `load_config` (`generate_summaries.py`, lines 25-33):
the YAML read is an `Except`-valued oracle; any failure yields `none`. -/
def load_config (src : Except String SummaryConfig) : Option SummaryConfig :=
  match src with
  | .ok config => some config
  | .error _ => none

/-- Embedding of `read_file` (`generate_summaries.py`, lines 35-42):
the file system read is an `Except`-valued oracle; any failure yields
`none`. -/
def read_file (src : Except String String) : Option String :=
  match src with
  | .ok content => some content
  | .error _ => none

/-- Embedding of `search_knowledge_base` (`kb_tool.py`): the module
state is the optional knowledge-base id (falsy when unset) and the
`client.retrieve` call is an `Except`-valued oracle returning the
retrieval results on success. -/
def search_knowledge_base (knowledge_base_id : Option String)
    (retrieve : Except String (List String)) (query : String) : String :=
  if ¬ optTruthy knowledge_base_id then
    "Mock RAG response for query: \x27" ++ query ++
      "\x27. This is a test response since no knowledge base is configured."
  else
    match retrieve with
    | .ok retrievalResults =>
        let results := retrievalResults.filter (fun content => content ≠ "")
        if results ≠ [] then String.intercalate "\n\n" results
        else "No relevant information found in the knowledge base."
    | .error e => "Error accessing knowledge base: " ++ e

/-! ## `clean_model_response` (`generate_summaries.py`, lines 592-685)

The function is a pipeline of regex substitutions and a line-based
state machine over the model output. Each `re` operation is translated
into an explicit scanner with the same matching semantics for the
concrete pattern it implements (leftmost match, non-overlapping
repetition, greedy `\s*` runs, non-greedy `(.*?)` as the shortest
continuation). Strings are taken as `List Char`. -/

def sumHeading : List Char := "# SUMMARY".data

/-- Suffix of `s` starting at the first occurrence of `needle`
(`s[s.find(needle):]`); `s` itself when `needle` does not occur. -/
def dropBeforeFirst (needle : List Char) : List Char → List Char
  | [] => []
  | c :: cs => if needle.isPrefixOf (c :: cs) then c :: cs else dropBeforeFirst needle cs

/-- Python `str.split('\n')`. -/
def splitLines : List Char → List (List Char)
  | [] => [[]]
  | c :: cs =>
    if c = '\n' then [] :: splitLines cs
    else
      match splitLines cs with
      | l :: ls => (c :: l) :: ls
      | [] => [[c]]

/-- Python `'\n'.join`. -/
def joinLines : List (List Char) → List Char
  | [] => []
  | [l] => l
  | l :: ls => l ++ '\n' :: joinLines ls

/-- The `start_index` scan of lines 600-604: index of the first line
starting with `# SUMMARY`, defaulting to 0. -/
def findStartIdx (ls : List (List Char)) : Nat :=
  match ls.findIdx? (fun l => sumHeading.isPrefixOf l) with
  | some i => i
  | none => 0


/-- Attempted match of `` ```\s*``` `` at the head of `s`: the
remainder after the match when it succeeds (lines 609-610; the greedy
`\s*` run is the maximal whitespace run, which must be followed
immediately by the closing fence). -/
def tickPairRem (s : List Char) : Option (List Char) :=
  if "```".data.isPrefixOf s then
    if "```".data.isPrefixOf ((s.drop 3).dropWhile pyIsSpace) then
      some (((s.drop 3).dropWhile pyIsSpace).drop 3)
    else none
  else none

theorem tickPairRem_length {s r : List Char} (h : tickPairRem s = some r) :
    r.length + 6 ≤ s.length := by
  unfold tickPairRem at h
  split at h
  · next hpre1 =>
    split at h
    · next hpre2 =>
      simp only [Option.some.injEq] at h
      subst h
      have l1 : 3 ≤ s.length := by
        have := List.isPrefixOf_iff_prefix.mp hpre1
        simpa using this.length_le
      have l2 : 3 ≤ ((s.drop 3).dropWhile pyIsSpace).length := by
        have := List.isPrefixOf_iff_prefix.mp hpre2
        simpa using this.length_le
      have l3 : ((s.drop 3).dropWhile pyIsSpace).length ≤ s.length - 3 := by
        have := (List.dropWhile_sublist (l := s.drop 3) pyIsSpace).length_le
        simpa using this
      simp only [List.length_drop]
      omega
    · exact absurd h (by simp)
  · exact absurd h (by simp)

/-- The substitution `re.sub(r'```\s*```', '', response)` of line 610:
scan left to right, delete each non-overlapping match, continue after
it. -/
def subTickPairs : List Char → List Char
  | [] => []
  | c :: cs =>
    match h : tickPairRem (c :: cs) with
    | some rest => subTickPairs rest
    | none => c :: subTickPairs cs
termination_by s => s.length
decreasing_by
  · have := tickPairRem_length h
    simp at this ⊢
    omega
  · simp

/-- Scan of the continuation `(.*?)\n```\s*\n\s*subgraph` after a
```` ```mermaid ```` header (lines 614-616): finds the shortest `X`
followed by `` \n``` ``, an all-whitespace run containing a newline,
and the literal `subgraph`; returns `X` and the remainder after
`subgraph`. -/
def findClose : List Char → Option (List Char × List Char)
  | [] => none
  | c :: cs =>
    if "\n```".data.isPrefixOf (c :: cs) &&
        ((((c :: cs).drop 4).takeWhile pyIsSpace).contains '\n' &&
          "subgraph".data.isPrefixOf (((c :: cs).drop 4).dropWhile pyIsSpace)) then
      some ([], (((c :: cs).drop 4).dropWhile pyIsSpace).drop 8)
    else
      match findClose cs with
      | some (x, t) => some (c :: x, t)
      | none => none

theorem findClose_length {s x t : List Char} (h : findClose s = some (x, t)) :
    t.length < s.length := by
  induction s generalizing x t with
  | nil => simp [findClose] at h
  | cons c cs ih =>
    unfold findClose at h
    split at h
    · simp only [Option.some.injEq, Prod.mk.injEq] at h
      obtain ⟨-, rfl⟩ := h
      have l3 : ((((c :: cs).drop 4).dropWhile pyIsSpace).length) ≤ (c :: cs).length - 4 := by
        have := (List.dropWhile_sublist (l := (c :: cs).drop 4) pyIsSpace).length_le
        simpa using this
      have := List.length_drop 8 (((c :: cs).drop 4).dropWhile pyIsSpace)
      simp only [List.length_cons] at *
      omega
    · rcases hfc : findClose cs with _ | ⟨x', t'⟩
      · rw [hfc] at h; simp at h
      · rw [hfc] at h
        simp only [Option.some.injEq, Prod.mk.injEq] at h
        obtain ⟨-, rfl⟩ := h
        have := ih hfc
        simp only [List.length_cons]
        omega

def mermaidHdrChars : List Char := "```mermaid\n".data

/-- One full-string pass of
`re.sub(r'```mermaid\n(.*?)\n```\s*\n\s*subgraph',
r'```mermaid\n\1\n    subgraph', response, flags=re.DOTALL)`:
the Bool records whether any match was found (the `re.search` of the
`while` condition at line 615). -/
def subMermaidAll : List Char → Bool × List Char
  | [] => (false, [])
  | c :: cs =>
    if mermaidHdrChars.isPrefixOf (c :: cs) then
      match h : findClose ((c :: cs).drop 11) with
      | some (x, tail) =>
        (true, mermaidHdrChars ++ x ++ "\n    subgraph".data ++ (subMermaidAll tail).2)
      | none =>
        ((subMermaidAll cs).1, c :: (subMermaidAll cs).2)
    else
      ((subMermaidAll cs).1, c :: (subMermaidAll cs).2)
termination_by s => s.length
decreasing_by
  · have := findClose_length h
    simp at this ⊢
    omega
  · simp
  · simp

/-- The `while re.search(...): response = re.sub(...)` loop of lines
614-616. Each looping substitution removes one closing fence, so the
number of iterations is at most a third of the character count;
running the loop with `s.length` fuel therefore reaches the fixed
point the Python loop reaches. -/
def mermaidFixLoop : Nat → List Char → List Char
  | 0, s => s
  | fuel + 1, s =>
    if (subMermaidAll s).1 then mermaidFixLoop fuel (subMermaidAll s).2 else s

def mermaidTypes : List (List Char) :=
  ["flowchart".data, "graph".data, "sequenceDiagram".data, "classDiagram".data,
   "stateDiagram".data, "gantt".data, "pie".data, "journey".data, "gitGraph".data,
   "mindmap".data, "timeline".data, "sankey".data, "requirement".data, "erDiagram".data]

/-- First alternative of the diagram-type alternation matching at the
head of `s`. -/
def matchType (s : List Char) : Option (List Char) :=
  mermaidTypes.find? (fun kw => kw.isPrefixOf s)

/-- Match of `mermaid\s*\n(type...)` at the current position (the part
of the line-619 pattern after the `(\n|^)` group): `mermaid`, then a
whitespace run whose last character is the `\n` the pattern requires,
then a diagram type. Returns the replacement text
`` ```mermaid\n<type> `` and the remainder after the type keyword. -/
def tryHdr (s : List Char) : Option (List Char × List Char) :=
  if "mermaid".data.isPrefixOf s &&
      ((s.drop 7).takeWhile pyIsSpace).getLast? = some '\n' then
    match matchType ((s.drop 7).dropWhile pyIsSpace) with
    | some kw =>
        some ("```mermaid\n".data ++ kw,
          ((s.drop 7).dropWhile pyIsSpace).drop kw.length)
    | none => none
  else none

theorem matchType_mem {s kw : List Char} (h : matchType s = some kw) :
    1 ≤ kw.length := by
  have hmem := List.mem_of_find?_eq_some h
  fin_cases hmem <;> simp

theorem tryHdr_length {s rep rest : List Char} (h : tryHdr s = some (rep, rest)) :
    rest.length < s.length := by
  unfold tryHdr at h
  split at h
  · next hcond =>
    rw [Bool.and_eq_true] at hcond
    obtain ⟨hpre, hw⟩ := hcond
    rcases hkw : matchType ((s.drop 7).dropWhile pyIsSpace) with _ | kw
    · rw [hkw] at h; simp at h
    · rw [hkw] at h
      simp only [Option.some.injEq, Prod.mk.injEq] at h
      obtain ⟨-, rfl⟩ := h
      have hkl := matchType_mem hkw
      have h7 : 7 ≤ s.length := by
        have := List.isPrefixOf_iff_prefix.mp hpre
        simpa using this.length_le
      have hw1 : 1 ≤ ((s.drop 7).takeWhile pyIsSpace).length := by
        rcases hlast : (s.drop 7).takeWhile pyIsSpace with _ | _
        · rw [hlast] at hw; simp at hw
        · simp [hlast]
      have hsplit : ((s.drop 7).takeWhile pyIsSpace).length +
          ((s.drop 7).dropWhile pyIsSpace).length = s.length - 7 := by
        rw [← List.length_append, List.takeWhile_append_dropWhile, List.length_drop]
      have := List.length_drop kw.length ((s.drop 7).dropWhile pyIsSpace)
      omega
  · simp at h

/-- Scan for the `(\n|^)mermaid\s*\n(type)` matches whose group is a
newline (every position except the string start). -/
def mermKwScan : List Char → List Char
  | [] => []
  | c :: cs =>
    if c = '\n' then
      match h : tryHdr cs with
      | some (rep, rest) => '\n' :: (rep ++ mermKwScan rest)
      | none => '\n' :: mermKwScan cs
    else c :: mermKwScan cs
termination_by s => s.length
decreasing_by
  · have := tryHdr_length h
    simp at this ⊢
    omega
  · simp
  · simp

/-- The substitution of lines 619-620, including the `^` case of the
group at position 0. -/
def subMermaidKw (s : List Char) : List Char :=
  match tryHdr s with
  | some (rep, rest) => rep ++ mermKwScan rest
  | none => mermKwScan s

/-- The lookahead of lines 640-644: skip blank lines, then test whether
the next non-empty line starts with `subgraph`. -/
def nextNonEmptyIsSubgraph : List (List Char) → Bool
  | [] => false
  | l :: ls =>
    if pyStrip l = [] then nextNonEmptyIsSubgraph ls
    else "subgraph".data.isPrefixOf (pyStrip l)

/-- The line-based state machine of lines 623-683 (`result` is the
accumulated output, `in_mermaid` the open-fence flag); the final
closing fence of lines 681-683 is appended when the input runs out
with the flag set. -/
def mermaidLineLoop : List (List Char) → Bool → List (List Char) → List (List Char)
  | [], in_mermaid, result => if in_mermaid then result ++ ["```".data] else result
  | l :: ls, in_mermaid, result =>
    if pyStrip l = "```mermaid".data then
      mermaidLineLoop ls true (result ++ [l])
    else if pyStrip l = "```".data ∧ in_mermaid then
      if nextNonEmptyIsSubgraph ls then
        mermaidLineLoop ls in_mermaid result
      else
        mermaidLineLoop ls false (result ++ [l])
    else if "subgraph".data.isPrefixOf (pyStrip l) ∧ ¬ in_mermaid then
      if result ≠ [] ∧ pyStrip (result.getLastD []) = "```".data then
        mermaidLineLoop ls true (result.dropLast ++ ["    ".data ++ l])
      else
        mermaidLineLoop ls true (result ++ ["```mermaid".data, "    ".data ++ l])
    else if in_mermaid then
      if "subgraph".data.isPrefixOf (pyStrip l) ∨ pyStrip l = "end".data ∨
          "    ".data.isPrefixOf (pyStrip l) then
        mermaidLineLoop ls in_mermaid (result ++ [l])
      else
        mermaidLineLoop ls in_mermaid (result ++ ["    ".data ++ l])
    else
      mermaidLineLoop ls in_mermaid (result ++ [l])

/-- Embedding of `clean_model_response` (lines 592-685): slice at the
first `# SUMMARY`, re-slice at the first line starting with it, delete
empty fence pairs, merge split mermaid blocks, fence bare
`mermaid`-plus-diagram-type headers, and run the line machine. -/
def clean_model_response (response : List Char) : List Char :=
  let r0 :=
    if containsSeq sumHeading response then dropBeforeFirst sumHeading response else response
  let r1 := joinLines ((splitLines r0).drop (findStartIdx (splitLines r0)))
  let r2 := subTickPairs r1
  let r3 := mermaidFixLoop r2.length r2
  let r4 := subMermaidKw r3
  joinLines (mermaidLineLoop (splitLines r4) false [])

/-! ## `filter_files` (`generate_summaries.py`, lines 55-82)

`fnmatch.fnmatch` is a Python-stdlib glob matcher; it is modelled as a
matcher parameter, so the theorems hold for every matcher. -/

def filter_files (fnmatch : String → String → Bool) (files : List String)
    (include_patterns exclude_patterns : List String) : List String × List String :=
  let important_files := files.filter fun file_path =>
    include_patterns.any fun pattern => fnmatch (basename file_path) pattern
  let filtered_files := files.filter fun file_path =>
    !(exclude_patterns.any fun pattern =>
        fnmatch file_path pattern || fnmatch (basename file_path) pattern) &&
      !(important_files.contains file_path)
  (important_files, filtered_files)

/-! ## Content assembly of `get_folder_content_summary`
(`generate_summaries.py`, lines 243-480)

The phase from "Content of Key Files" on is embedded as a function of
the summary string built by the earlier listing phase (`init`) and of
the categorised file lists with their read contents (a read failure or
empty read is the falsy content `""`; notebook JSON parsing is
modelled by the `parsed` field, `none` being the `except` branch of
lines 297-300). `tokens_used` is initialised to `len(content_summary)
// 4` (line 255) and each loop keeps its own budget arithmetic exactly
as in the source, including the token-free note strings. -/

def maxTokensBudget : Nat := 190000

structure SumSt where
  summary : String
  tokens : Nat
deriving Repr, DecidableEq

structure KeyFile where
  name : String
  content : String
deriving Repr, DecidableEq

inductive NbCell where
  | markdown (source : String)
  | code (source : String)
  | otherCell
deriving Repr, DecidableEq

structure Notebook where
  name : String
  raw : String
  parsed : Option (List NbCell)
deriving Repr, DecidableEq

structure FileSelCfg where
  max_notebooks : Nat
  max_notebook_cells : Nat
  max_python_files : Nat
  max_python_lines : Nat
  max_markdown_files : Nat
  max_yaml_files : Nat
  max_yaml_lines : Nat
  max_terraform_files : Nat
  max_terraform_lines : Nat
  max_shell_files : Nat
  max_shell_lines : Nat
  max_text_files : Nat
  max_text_lines : Nat
deriving Repr, DecidableEq

/-- The config defaults of lines 108-112, 157-160 and 353-360. -/
def defaultFileSelCfg : FileSelCfg :=
  { max_notebooks := 1000, max_notebook_cells := 10000,
    max_python_files := 1000, max_python_lines := 100000,
    max_markdown_files := 1000,
    max_yaml_files := 1000, max_yaml_lines := 100000,
    max_terraform_files := 1000, max_terraform_lines := 100000,
    max_shell_files := 1000, max_shell_lines := 100000,
    max_text_files := 1000, max_text_lines := 100000 }

/-- The notebook cells loop of lines 270-294: markdown cells append
their source (token-counted without the blank line), code cells append
a fenced block, cells of any other type are skipped by the if/elif
chain; a cell pushing past the budget appends an omission note and
breaks. -/
def addNbCells : SumSt → List NbCell → SumSt
  | st, [] => st
  | st, .otherCell :: cells => addNbCells st cells
  | st, .markdown cell_content :: cells =>
    if st.tokens + cell_content.length / 4 > maxTokensBudget then
      { st with summary := st.summary ++ "*Note: Remaining cells omitted due to token limit*\n\n" }
    else
      addNbCells
        { summary := st.summary ++ cell_content ++ "\n\n",
          tokens := st.tokens + cell_content.length / 4 } cells
  | st, .code cell_content :: cells =>
    if st.tokens + ("```python\n" ++ cell_content ++ "\n```\n\n").length / 4 > maxTokensBudget then
      { st with summary := st.summary ++ "*Note: Remaining cells omitted due to token limit*\n\n" }
    else
      addNbCells
        { summary := st.summary ++ ("```python\n" ++ cell_content ++ "\n```\n\n"),
          tokens := st.tokens + ("```python\n" ++ cell_content ++ "\n```\n\n").length / 4 } cells

/-- The notebook loop of lines 258-300: unconditional header, then the
cells loop (capped at `max_notebook_cells`), or the parse-failure
note. -/
def addNotebooks (cfg : FileSelCfg) : SumSt → List Notebook → SumSt
  | st, [] => st
  | st, nb :: nbs =>
    if nb.raw = "" then addNotebooks cfg st nbs
    else
      addNotebooks cfg
        (match nb.parsed with
         | some cells =>
             addNbCells
               { summary := st.summary ++ ("### " ++ basename nb.name ++ "\n\n"),
                 tokens := st.tokens + ("### " ++ basename nb.name ++ "\n\n").length / 4 }
               (cells.take (min cfg.max_notebook_cells cells.length))
         | none =>
             { summary := st.summary ++ ("### " ++ basename nb.name ++ "\n\n") ++
                 "Could not parse notebook content.\n\n",
               tokens := st.tokens + ("### " ++ basename nb.name ++ "\n\n").length / 4 +
                 "Could not parse notebook content.\n\n".length / 4 })
        nbs

/-- The fenced-file loops of lines 302-330 (python), 365-391 (yaml),
393-418 (terraform), 420-445 (shell) and 447-472 (text), which differ
only in the fence label, the break note, and the line cap. The entry
check `tokens_used > max_tokens * 0.9` is the exact rational
comparison (`0.9 * 190000` is the exact float `171000.0`). A file
whose block would pass the budget appends it and counts its tokens;
otherwise only the content-omitted note is appended. -/
def addCodeFiles (fence note : String) (maxLines : Nat) : SumSt → List KeyFile → SumSt
  | st, [] => st
  | st, f :: fs =>
    if st.tokens * 10 > maxTokensBudget * 9 then
      { st with summary := st.summary ++ note }
    else if f.content = "" then addCodeFiles fence note maxLines st fs
    else
      if (st.tokens + ("### " ++ basename f.name ++ "\n\n").length / 4) +
          ("```" ++ fence ++ "\n" ++
            String.intercalate "\n" ((f.content.splitOn "\n").take
              (min maxLines (f.content.splitOn "\n").length)) ++ "\n```\n\n").length / 4 >
          maxTokensBudget then
        addCodeFiles fence note maxLines
          { summary := st.summary ++ ("### " ++ basename f.name ++ "\n\n") ++
              "*Note: File content omitted due to token limit*\n\n",
            tokens := st.tokens + ("### " ++ basename f.name ++ "\n\n").length / 4 } fs
      else
        addCodeFiles fence note maxLines
          { summary := st.summary ++ ("### " ++ basename f.name ++ "\n\n") ++
              ("```" ++ fence ++ "\n" ++
                String.intercalate "\n" ((f.content.splitOn "\n").take
                  (min maxLines (f.content.splitOn "\n").length)) ++ "\n```\n\n"),
            tokens := st.tokens + ("### " ++ basename f.name ++ "\n\n").length / 4 +
              ("```" ++ fence ++ "\n" ++
                String.intercalate "\n" ((f.content.splitOn "\n").take
                  (min maxLines (f.content.splitOn "\n").length)) ++ "\n```\n\n").length / 4 } fs

/-- The markdown loop of lines 332-350: skip `README.md`, break past
95% of the budget (`0.95 * 190000` is the exact float `180500.0`),
then append header and full content with no per-file budget check. -/
def addMdFiles : SumSt → List KeyFile → SumSt
  | st, [] => st
  | st, f :: fs =>
    if basename f.name = "README.md" then addMdFiles st fs
    else if st.tokens * 20 > maxTokensBudget * 19 then
      { st with summary := st.summary ++
          "*Note: Additional markdown files omitted due to token limit*\n\n" }
    else if f.content = "" then addMdFiles st fs
    else
      addMdFiles
        { summary := st.summary ++ ("### " ++ basename f.name ++ "\n\n") ++
            f.content ++ "\n\n",
          tokens := st.tokens + ("### " ++ basename f.name ++ "\n\n").length / 4 +
            f.content.length / 4 } fs

structure KeyFileInputs where
  notebooks : List Notebook
  python_files : List KeyFile
  markdown_files : List KeyFile
  yaml_files : List KeyFile
  terraform_files : List KeyFile
  shell_files : List KeyFile
  text_files : List KeyFile
deriving Repr

/-- The whole "Content of Key Files" phase in source order: notebooks,
python, markdown, yaml, terraform, shell, text, each list capped by
its configured file count. -/
def addKeyFileContents (cfg : FileSelCfg) (init : String) (fi : KeyFileInputs) : SumSt :=
  let st0 : SumSt := { summary := init, tokens := init.length / 4 }
  let st1 := addNotebooks cfg st0 (fi.notebooks.take cfg.max_notebooks)
  let st2 := addCodeFiles "python" "*Note: Additional files omitted due to token limit*\n\n"
    cfg.max_python_lines st1 (fi.python_files.take cfg.max_python_files)
  let st3 := addMdFiles st2 (fi.markdown_files.take cfg.max_markdown_files)
  let st4 := addCodeFiles "yaml" "*Note: Additional YAML files omitted due to token limit*\n\n"
    cfg.max_yaml_lines st3 (fi.yaml_files.take cfg.max_yaml_files)
  let st5 := addCodeFiles "hcl" "*Note: Additional files omitted due to token limit*\n\n"
    cfg.max_terraform_lines st4 (fi.terraform_files.take cfg.max_terraform_files)
  let st6 := addCodeFiles "bash" "*Note: Additional files omitted due to token limit*\n\n"
    cfg.max_shell_lines st5 (fi.shell_files.take cfg.max_shell_files)
  addCodeFiles "" "*Note: Additional files omitted due to token limit*\n\n"
    cfg.max_text_lines st6 (fi.text_files.take cfg.max_text_files)

/-! ## Per-folder summary generation and the main loop
(`generate_summaries.py`, lines 482-590 and 687-746)

`bedrock.converse` plus the response-text extraction of line 570 is
the oracle `converse`; the result of `get_folder_content_summary` for
the folder is the `folderContent` input (`none` for a missing folder);
`outputExists` is the line-694 skip test. The `Nat` component counts
the `converse` calls made. -/

structure FolderEnv where
  name : String
  outputExists : Bool
  folderContent : Option String
  converse : String → Except String String

/-- Embedding of `generate_summary_with_bedrock` (lines 482-590):
prompt assembly from the template, a single `converse` call, response
cleanup on success, `None` on a raised exception. -/
def generate_summary_with_bedrock (env : FolderEnv) (prompt_template : String)
    (cfg : SummaryConfig) : Option String × Nat :=
  match env.folderContent with
  | none => (none, 0)
  | some folder_content =>
    if folder_content = "" then (none, 0)
    else
      let complete_report_filename := cfg.file_prefix ++ env.name ++ ".md"
      let prompt := ((prompt_template.replace "[codebase-folder-name]" env.name).replace
        "[report-file-name]" complete_report_filename).replace
        "[report-folder-name]" cfg.out_directory
      let prompt := prompt ++
        "\n\nIMPORTANT: Start your response directly with the title \x27# " ++
        complete_report_filename ++
        "\x27 (not abbreviated). Do not include any introductory text, preamble, or markdown tags before the title. Begin with the exact title and proceed with the analysis."
      let full_prompt := prompt ++ "\n\n# Folder Content to Analyze\n\n" ++ folder_content
      match env.converse full_prompt with
      | .ok model_response => (some (String.mk (clean_model_response model_response.data)), 1)
      | .error _ => (none, 1)

/-- Embedding of `generate_summary_file` (lines 687-707): skip folders
whose summary file already exists (returning `True` with no call),
otherwise generate; the third component is the file content written,
`none` when nothing is written. -/
def generate_summary_file (env : FolderEnv) (prompt_template : String)
    (cfg : SummaryConfig) : Bool × Nat × Option String :=
  if env.outputExists then (true, 0, none)
  else
    match generate_summary_with_bedrock env prompt_template cfg with
    | (some summary, calls) =>
        if summary = "" then (false, calls, none) else (true, calls, some summary)
    | (none, calls) => (false, calls, none)

/-- The success-counting folder loop of `main` (lines 738-743). -/
def mainSuccessCount (prompt_template : String) (cfg : SummaryConfig) :
    List FolderEnv → Nat
  | [] => 0
  | env :: envs =>
    (if (generate_summary_file env prompt_template cfg).1 then 1 else 0) +
      mainSuccessCount prompt_template cfg envs

/-! ## Concrete instances used by the counterexamples and witnesses -/

def skipFolderEnv : FolderEnv :=
  { name := "f", outputExists := true, folderContent := some "content",
    converse := fun _ => .ok "# SUMMARY ok" }

def sampleSummaryConfig : SummaryConfig :=
  { file_prefix := "bedrock-workshop-analysis-", out_directory := "my-analysis",
    model_id := "model-id", model_name := "model-name" }

def failingFolderEnv : FolderEnv :=
  { name := "g", outputExists := false, folderContent := some "content",
    converse := fun _ => .error "ThrottlingException" }

/-- Key-file inputs holding a single markdown file. -/
def mdInputs (s : String) : KeyFileInputs :=
  { notebooks := [], python_files := [], markdown_files := [⟨"a.md", s⟩],
    yaml_files := [], terraform_files := [], shell_files := [], text_files := [] }

/-- A markdown file of 760004 characters: about 190001 estimated
tokens, alone larger than the whole budget. -/
def mdBig : String := String.mk (List.replicate 760004 'a')

/-! ## Claim theorems, witnesses and counterexamples -/

/-- C1: for every query, `_determine_agent_strategy` returns the
comma-plus-space join, in the fixed order research, analysis, creative,
of exactly the categories with a keyword occurring as a substring of the
lowercased query, and `coordinator` when no keyword of any category
occurs. -/
theorem determine_agent_strategy_eq_spec (query : String) :
    determine_agent_strategy query = strategySpec query := by
  unfold determine_agent_strategy strategySpec strategy_categories
  rcases hr : research_keywords.any (fun k => pyInStr k (strLower query)) <;>
    rcases ha : analysis_keywords.any (fun k => pyInStr k (strLower query)) <;>
      rcases hc : creative_keywords.any (fun k => pyInStr k (strLower query)) <;>
        simp [hr, ha, hc, List.filter]
  rfl

/-! ## Theorems about the agent wrappers and controllers -/

/-- C10: for every request with the stream flag set the controller
coroutine `invoke` raises `ValueError` with the message
`Streaming requests should use the /stream endpoint` (for every agent,
so the agent is never consulted); for stream unset or false it returns
the agent's response unchanged; hence `invoke` raises if and only if
the request asks for streaming or the agent itself raises. -/
theorem controller_invoke_stream_guard :
    (∀ (agent : AgenticRequest → Except String AgenticResponse) (req : AgenticRequest),
        req.stream = true →
        controllerInvoke agent req =
          .error "Streaming requests should use the /stream endpoint") ∧
    (∀ (agent : AgenticRequest → Except String AgenticResponse) (req : AgenticRequest),
        req.stream = false → controllerInvoke agent req = agent req) ∧
    (∀ (agent : AgenticRequest → Except String AgenticResponse) (req : AgenticRequest),
        (∃ e, controllerInvoke agent req = .error e) ↔
          (req.stream = true ∨ ∃ e, agent req = .error e)) := by
  refine ⟨?_, ?_, ?_⟩
  · intro agent req h
    simp [controllerInvoke, h]
  · intro agent req h
    simp [controllerInvoke, h]
  · intro agent req
    rcases h : req.stream with _ | _
    · simp [controllerInvoke, h]
    · simp [controllerInvoke, h]

/-- Witness for `controller_invoke_stream_guard` at concrete inputs. -/
theorem controller_invoke_stream_guard_witness :
    (AgenticRequest.mk (Message.from_text "user" "hi") (some "s1") true).stream = true ∧
    controllerInvoke (fun _ => .ok ⟨Message.from_text "assistant" "ok", some "s1", []⟩)
        (AgenticRequest.mk (Message.from_text "user" "hi") (some "s1") true) =
      .error "Streaming requests should use the /stream endpoint" :=
  ⟨rfl, controller_invoke_stream_guard.1 _ _ rfl⟩

/-- C3 counterexample: a public entry point does raise. The controller
coroutine `invoke` propagates a `ValueError` (modelled as
`Except.error`) to its caller on a streaming request, refuting the
claim that no public entry point raises an exception. -/
theorem public_entry_point_raises_counterexample :
    controllerInvoke (fun _ => .ok ⟨Message.from_text "assistant" "ok", some "s1", []⟩)
        (AgenticRequest.mk (Message.from_text "user" "hi") (some "s1") true) =
      .error "Streaming requests should use the /stream endpoint" := rfl

/-- C3 (amended): `load_config` and `read_file` return `None` on any
failure of the wrapped external call, and `search_knowledge_base`
returns an error string on any retrieval failure; but the controller's
`invoke` raises `ValueError` on streaming requests, and the agent's
`invoke` raises `ValueError` when the request message has no text
content, so those public entry points can propagate exceptions. -/
theorem broad_exception_wrappers :
    (∀ e, load_config (.error e) = none) ∧
    (∀ e, read_file (.error e) = none) ∧
    (∀ kb e query, optTruthy kb = true →
        search_knowledge_base kb (.error e) query =
          "Error accessing knowledge base: " ++ e) ∧
    (∀ (agent : AgenticRequest → Except String AgenticResponse) (req : AgenticRequest),
        req.stream = true → ∃ msg, controllerInvoke agent req = .error msg) ∧
    (∀ (coordinator : String → String) (req : AgenticRequest),
        req.message.get_text_content = none →
        ∃ msg, agentInvoke coordinator req = .error msg) := by
  refine ⟨fun e => rfl, fun e => rfl, ?_, ?_, ?_⟩
  · intro kb e query h
    simp [search_knowledge_base, h]
  · intro agent req h
    exact ⟨"Streaming requests should use the /stream endpoint", by simp [controllerInvoke, h]⟩
  · intro coordinator req h
    exact ⟨"No text content found in request message", by simp [agentInvoke, h]⟩

/-- Witness for `broad_exception_wrappers` at concrete inputs. -/
theorem broad_exception_wrappers_witness :
    optTruthy (some "kb-1") = true ∧
    search_knowledge_base (some "kb-1") (.error "boom") "q" =
      "Error accessing knowledge base: " ++ "boom" ∧
    (AgenticRequest.mk (Message.from_text "user" "hi") none true).stream = true ∧
    (∃ msg, controllerInvoke (fun _ => .ok ⟨Message.from_text "assistant" "ok", none, []⟩)
        (AgenticRequest.mk (Message.from_text "user" "hi") none true) = .error msg) ∧
    (Message.mk "user" []).get_text_content = none ∧
    (∃ msg, agentInvoke (fun _ => "ok")
        (AgenticRequest.mk (Message.mk "user" []) none false) = .error msg) :=
  ⟨rfl, broad_exception_wrappers.2.2.1 _ _ _ rfl, rfl,
    broad_exception_wrappers.2.2.2.1 _ _ rfl, rfl,
    broad_exception_wrappers.2.2.2.2 _ _ rfl⟩

/-- C4: an `AgenticRequest` whose message contains a text content block
yields, from `StrandsMultiAgentChatAgent.invoke`, an
`AgenticResponse` wrapping an assistant-role message with exactly one
text content block, session identifier `request.session_id or
"default"` (the request's identifier when it is set to a non-empty
string, `default` otherwise), and a non-empty free-form metadata
dictionary; and `ChatController.chat` returns a response whose message
has role assistant and a single text content block, and whose session
identifier equals the request's session identifier. -/
theorem invoke_and_chat_response_shape :
    (∀ (coordinator : String → String) (req : AgenticRequest) (t : String),
        req.message.get_text_content = some t →
        ∃ resp, agentInvoke coordinator req = .ok resp ∧
          resp.message.role = "assistant" ∧
          (∃ s, resp.message.content = [.text s]) ∧
          resp.session_id = some (orDefaultStr req.session_id "default") ∧
          (∀ sid, req.session_id = some sid → sid ≠ "" → resp.session_id = some sid) ∧
          (req.session_id = none → resp.session_id = some "default") ∧
          resp.metadata ≠ []) ∧
    (∀ (run : ChatPromptInputs → Message) (req : AgenticRequest),
        (chatControllerChat run req).message.role = "assistant" ∧
        (∃ s, (chatControllerChat run req).message.content = [.text s]) ∧
        (chatControllerChat run req).session_id = req.session_id) := by
  constructor
  · intro coordinator req t ht
    refine ⟨⟨⟨"assistant",
        [.text (coordinator ("[Multi-Agent Strategy: " ++ determine_agent_strategy t ++ "] " ++ t))]⟩,
        some (orDefaultStr req.session_id "default"),
        [("agent_type", .str "strands_multi_agent_chat"),
         ("strategy_used", .str (determine_agent_strategy t)),
         ("agents_available", .list ["coordinator", "research", "analysis", "creative"])]⟩,
      by simp [agentInvoke, ht], rfl, ⟨_, rfl⟩, rfl, ?_, ?_, by simp⟩
    · intro sid hsid hne
      simp [orDefaultStr, hsid, hne]
    · intro hnone
      simp [orDefaultStr, hnone]
  · intro run req
    exact ⟨rfl, ⟨_, rfl⟩, rfl⟩

/-- Witness for `invoke_and_chat_response_shape` at a concrete
request. -/
theorem invoke_and_chat_response_shape_witness :
    (Message.from_text "user" "hello").get_text_content = some "hello" ∧
    (∃ resp, agentInvoke (fun _ => "ok")
        (AgenticRequest.mk (Message.from_text "user" "hello") (some "s1") false) = .ok resp ∧
      resp.message.role = "assistant" ∧
      (∃ s, resp.message.content = [.text s]) ∧
      resp.session_id =
        some (orDefaultStr (AgenticRequest.mk
          (Message.from_text "user" "hello") (some "s1") false).session_id "default") ∧
      (∀ sid, (AgenticRequest.mk (Message.from_text "user" "hello") (some "s1")
          false).session_id = some sid → sid ≠ "" → resp.session_id = some sid) ∧
      ((AgenticRequest.mk (Message.from_text "user" "hello") (some "s1")
          false).session_id = none → resp.session_id = some "default") ∧
      resp.metadata ≠ []) :=
  ⟨rfl, invoke_and_chat_response_shape.1 (fun _ => "ok") _ "hello" rfl⟩

/-- C7: a request whose message has no text content block makes
`invoke_stream` yield exactly one event, the `ErrorEvent` carrying the
session identifier (`default` when unset) and the text
`No text content found in request message`, for every converter and
coordinator-stream oracle (so the coordinator is never invoked); and
when the coordinator stream is interrupted by an exception, the last
yielded event is an `ErrorEvent` carrying `str(e)` instead of the
exception propagating (the generator totally returns its event list). -/
theorem invoke_stream_error_handling :
    (∀ (convert : StrandsEvent → List StreamEvent)
        (coordStream : String → List StrandsEvent × Option String) (req : AgenticRequest),
        req.message.get_text_content = none →
        agentInvokeStream convert coordStream req =
          [.errorEvent (orDefaultStr req.session_id "default")
            "No text content found in request message"]) ∧
    (∀ (convert : StrandsEvent → List StreamEvent)
        (coordStream : String → List StrandsEvent × Option String)
        (req : AgenticRequest) (t : String) (events : List StrandsEvent) (e : String),
        req.message.get_text_content = some t →
        coordStream ("[Multi-Agent Strategy: " ++ determine_agent_strategy t ++ "] " ++ t) =
          (events, some e) →
        (agentInvokeStream convert coordStream req).getLast? =
          some (.errorEvent (orDefaultStr req.session_id "default") e)) := by
  constructor
  · intro convert coordStream req h
    simp [agentInvokeStream, h]
  · intro convert coordStream req t events e ht hcs
    simp [agentInvokeStream, ht, hcs]

/-- Witness for `invoke_stream_error_handling` at concrete inputs. -/
theorem invoke_stream_error_handling_witness :
    (Message.mk "user" [.other]).get_text_content = none ∧
    agentInvokeStream (fun ev => [.textDelta "d" ev.payload])
        (fun _ => ([⟨"chunk"⟩], some "boom"))
        (AgenticRequest.mk (Message.mk "user" [.other]) none true) =
      [.errorEvent (orDefaultStr (AgenticRequest.mk (Message.mk "user" [.other])
          none true).session_id "default")
        "No text content found in request message"] :=
  ⟨rfl, invoke_stream_error_handling.1 _ _ _ rfl⟩

/-! ## Prefix preservation through the `clean_model_response` passes -/

theorem dropBeforeFirst_isPrefixOf {needle : List Char} :
    ∀ {s : List Char}, containsSeq needle s = true →
      needle.isPrefixOf (dropBeforeFirst needle s) = true := by
  intro s
  induction s with
  | nil =>
    intro h
    rw [containsSeq] at h
    rw [dropBeforeFirst]
    exact h
  | cons c cs ih =>
    intro h
    rw [containsSeq, Bool.or_eq_true] at h
    rw [dropBeforeFirst]
    by_cases hp : needle.isPrefixOf (c :: cs) = true
    · rw [if_pos hp]
      exact hp
    · rw [if_neg hp]
      exact ih (h.resolve_left hp)

theorem splitLines_ne_nil (s : List Char) : splitLines s ≠ [] := by
  cases s with
  | nil => simp [splitLines]
  | cons c cs =>
    rw [splitLines]
    split
    · simp
    · split <;> simp

theorem joinLines_single (a : List Char) : joinLines [a] = a := rfl

theorem joinLines_cons_cons (a b : List Char) (t : List (List Char)) :
    joinLines (a :: b :: t) = a ++ '\n' :: joinLines (b :: t) := rfl

theorem joinLines_splitLines (s : List Char) : joinLines (splitLines s) = s := by
  induction s with
  | nil => rfl
  | cons c cs ih =>
    rw [splitLines]
    split
    · next hc =>
      rcases h2 : splitLines cs with _ | ⟨l, ls⟩
      · exact absurd h2 (splitLines_ne_nil cs)
      · rw [h2] at ih
        rw [joinLines_cons_cons, ih, hc]
        rfl
    · next hc =>
      rcases h2 : splitLines cs with _ | ⟨l, ls⟩
      · exact absurd h2 (splitLines_ne_nil cs)
      · rw [h2] at ih
        show joinLines ((c :: l) :: ls) = c :: cs
        rcases ls with _ | ⟨l2, ls2⟩
        · rw [joinLines_single] at ih
          rw [joinLines_single, ih]
        · rw [joinLines_cons_cons] at ih
          rw [joinLines_cons_cons, List.cons_append, ih]

theorem splitLines_append_no_newline {pre : List Char}
    (hp : ∀ ch ∈ pre, ch ≠ '\n') :
    ∀ {s l : List Char} {ls : List (List Char)}, splitLines s = l :: ls →
      splitLines (pre ++ s) = (pre ++ l) :: ls := by
  induction pre with
  | nil => intro s l ls h; simpa using h
  | cons c pre ih =>
    intro s l ls h
    have hc : c ≠ '\n' := hp c (List.mem_cons_self c pre)
    rw [List.cons_append, splitLines, if_neg hc,
      ih (fun ch hch => hp ch (List.mem_cons_of_mem c hch)) h]
    rfl

theorem findStartIdx_head_match {l : List Char} {ls : List (List Char)}
    (h : sumHeading.isPrefixOf l = true) : findStartIdx (l :: ls) = 0 := by
  rw [findStartIdx, List.findIdx?_cons]
  rw [h]
  rfl

theorem tickPairRem_cons_ne {c : Char} (hc : c ≠ '`') (l : List Char) :
    tickPairRem (c :: l) = none := by
  rw [tickPairRem, if_neg]
  rw [show "```".data = ['`', '`', '`'] from rfl]
  simp only [List.isPrefixOf, Bool.and_eq_true, beq_iff_eq]
  intro hcontra
  exact hc hcontra.1.symm

theorem subTickPairs_cons_none {c : Char} {cs : List Char}
    (h : tickPairRem (c :: cs) = none) :
    subTickPairs (c :: cs) = c :: subTickPairs cs := by
  rw [subTickPairs]
  split
  · next rest heq =>
    rw [h] at heq
    exact absurd heq (by simp)
  · rfl

theorem subTickPairs_append {pre : List Char} (hp : ∀ ch ∈ pre, ch ≠ '`') (s : List Char) :
    subTickPairs (pre ++ s) = pre ++ subTickPairs s := by
  induction pre with
  | nil => rfl
  | cons c pre ih =>
    rw [List.cons_append,
      subTickPairs_cons_none (tickPairRem_cons_ne (hp c (List.mem_cons_self c pre)) _),
      ih (fun ch hch => hp ch (List.mem_cons_of_mem c hch))]
    rfl

theorem subMermaidAll_cons_not_hdr {c : Char} {cs : List Char}
    (h : ¬ mermaidHdrChars.isPrefixOf (c :: cs) = true) :
    subMermaidAll (c :: cs) = ((subMermaidAll cs).1, c :: (subMermaidAll cs).2) := by
  rw [subMermaidAll, if_neg h]

theorem mermaidHdr_cons_ne {c : Char} (hc : c ≠ '`') (l : List Char) :
    ¬ mermaidHdrChars.isPrefixOf (c :: l) = true := by
  rw [show mermaidHdrChars = '`' :: "``mermaid\n".data from rfl]
  simp only [List.isPrefixOf, Bool.and_eq_true, beq_iff_eq]
  intro hcontra
  exact hc hcontra.1.symm

theorem subMermaidAll_append {pre : List Char} (hp : ∀ ch ∈ pre, ch ≠ '`') (s : List Char) :
    subMermaidAll (pre ++ s) = ((subMermaidAll s).1, pre ++ (subMermaidAll s).2) := by
  induction pre with
  | nil => rfl
  | cons c pre ih =>
    rw [List.cons_append,
      subMermaidAll_cons_not_hdr (mermaidHdr_cons_ne (hp c (List.mem_cons_self c pre)) _),
      ih (fun ch hch => hp ch (List.mem_cons_of_mem c hch))]
    rfl

theorem mermaidFixLoop_append (fuel : Nat) {pre : List Char}
    (hp : ∀ ch ∈ pre, ch ≠ '`') (s : List Char) :
    ∃ t, mermaidFixLoop fuel (pre ++ s) = pre ++ t := by
  induction fuel generalizing s with
  | zero => exact ⟨s, rfl⟩
  | succ n ih =>
    rw [mermaidFixLoop, subMermaidAll_append hp s]
    by_cases hb : (subMermaidAll s).1 = true
    · simp only [hb, if_true]
      exact ih ((subMermaidAll s).2)
    · rw [Bool.not_eq_true] at hb
      simp only [hb, Bool.false_eq_true, if_false]
      exact ⟨s, rfl⟩

theorem tryHdr_cons_ne {c : Char} (hc : c ≠ 'm') (l : List Char) :
    tryHdr (c :: l) = none := by
  rw [tryHdr, if_neg]
  rw [show "mermaid".data = 'm' :: "ermaid".data from rfl]
  simp only [List.isPrefixOf, Bool.and_eq_true, beq_iff_eq]
  intro hcontra
  exact hc hcontra.1.1.symm

theorem mermKwScan_cons_ne {c : Char} (hc : c ≠ '\n') (cs : List Char) :
    mermKwScan (c :: cs) = c :: mermKwScan cs := by
  rw [mermKwScan, if_neg hc]

theorem mermKwScan_append {pre : List Char} (hp : ∀ ch ∈ pre, ch ≠ '\n') (s : List Char) :
    mermKwScan (pre ++ s) = pre ++ mermKwScan s := by
  induction pre with
  | nil => rfl
  | cons c pre ih =>
    rw [List.cons_append, mermKwScan_cons_ne (hp c (List.mem_cons_self c pre)),
      ih (fun ch hch => hp ch (List.mem_cons_of_mem c hch))]
    rfl

theorem subMermaidKw_append {c : Char} {pre : List Char}
    (hp : ∀ ch ∈ c :: pre, ch ≠ '\n' ∧ ch ≠ 'm') (s : List Char) :
    subMermaidKw ((c :: pre) ++ s) = (c :: pre) ++ mermKwScan s := by
  rw [subMermaidKw]
  rw [List.cons_append, tryHdr_cons_ne (hp c (List.mem_cons_self c pre)).2]
  show mermKwScan (c :: (pre ++ s)) = c :: pre ++ mermKwScan s
  rw [mermKwScan_cons_ne (hp c (List.mem_cons_self c pre)).1,
    mermKwScan_append (fun ch hch => (hp ch (List.mem_cons_of_mem c hch)).1)]
  rfl

theorem pyStrip_cons_not_space {c : Char} (hc : pyIsSpace c = false) (l : List Char) :
    ∃ m, pyStrip (c :: l) = c :: m := by
  unfold pyStrip
  rw [List.dropWhile_cons, hc]
  simp only [Bool.false_eq_true, if_false]
  rw [show (c :: l).reverse = l.reverse ++ [c] from by simp]
  rw [List.dropWhile_append]
  by_cases he : (l.reverse.dropWhile pyIsSpace).isEmpty = true
  · rw [if_pos he]
    rw [List.dropWhile_cons, hc]
    exact ⟨[], by simp⟩
  · rw [if_neg he]
    exact ⟨(l.reverse.dropWhile pyIsSpace).reverse, by rw [List.reverse_append]; simp⟩

theorem mermaidLineLoop_head (ls : List (List Char)) :
    ∀ (inM : Bool) (l₀ : List Char) (rest : List (List Char)),
      pyStrip l₀ ≠ "```".data →
      ∃ res, mermaidLineLoop ls inM (l₀ :: rest) = l₀ :: res := by
  induction ls with
  | nil =>
    intro inM l₀ rest h₀
    rw [mermaidLineLoop]
    split
    · exact ⟨rest ++ ["```".data], by rw [List.cons_append]⟩
    · exact ⟨rest, rfl⟩
  | cons l ls ih =>
    intro inM l₀ rest h₀
    rw [mermaidLineLoop]
    split
    · rw [List.cons_append]
      exact ih true l₀ (rest ++ [l]) h₀
    · split
      · split
        · exact ih inM l₀ rest h₀
        · rw [List.cons_append]
          exact ih false l₀ (rest ++ [l]) h₀
      · split
        · split
          · next hcond =>
            rcases rest with _ | ⟨r, rs⟩
            · exact absurd hcond.2 h₀
            · rw [List.dropLast_cons₂, List.cons_append]
              exact ih true l₀ ((r :: rs).dropLast ++ ["    ".data ++ l]) h₀
          · rw [List.cons_append]
            exact ih true l₀ (rest ++ ["```mermaid".data, "    ".data ++ l]) h₀
        · split
          · split
            · rw [List.cons_append]
              exact ih inM l₀ (rest ++ [l]) h₀
            · rw [List.cons_append]
              exact ih inM l₀ (rest ++ ["    ".data ++ l]) h₀
          · rw [List.cons_append]
            exact ih inM l₀ (rest ++ [l]) h₀

theorem joinLines_head_append (l₀ : List Char) (res : List (List Char)) :
    ∃ t, joinLines (l₀ :: res) = l₀ ++ t := by
  cases res with
  | nil => exact ⟨[], by rw [joinLines_single, List.append_nil]⟩
  | cons b t => exact ⟨'\n' :: joinLines (b :: t), joinLines_cons_cons _ _ _⟩

/-- C9: for every model response containing `# SUMMARY`, the output of
`clean_model_response` begins with `# SUMMARY`: the preamble before the
first occurrence is removed and none of the later fix-up passes
(line re-slice, empty-fence deletion, mermaid merging, header fencing,
line machine) reintroduces text before it. -/
theorem clean_model_response_starts_with_heading :
    ∀ (response : List Char), containsSeq sumHeading response = true →
      sumHeading.isPrefixOf (clean_model_response response) = true := by
  intro response h
  have hnl : ∀ ch ∈ sumHeading, ch ≠ '\n' := by decide
  have hnb : ∀ ch ∈ sumHeading, ch ≠ '`' := by decide
  obtain ⟨t0, ht0⟩ := List.isPrefixOf_iff_prefix.mp (dropBeforeFirst_isPrefixOf h)
  simp only [clean_model_response]
  rw [if_pos h, ← ht0]
  rcases hsl : splitLines t0 with _ | ⟨l, ls⟩
  · exact absurd hsl (splitLines_ne_nil t0)
  rw [splitLines_append_no_newline hnl hsl,
    findStartIdx_head_match (List.isPrefixOf_iff_prefix.mpr ⟨l, rfl⟩), List.drop_zero,
    ← splitLines_append_no_newline hnl hsl, joinLines_splitLines,
    subTickPairs_append hnb]
  obtain ⟨t3, ht3⟩ := mermaidFixLoop_append
    ((sumHeading ++ subTickPairs t0).length) hnb (subTickPairs t0)
  rw [ht3]
  rw [show sumHeading = '#' :: " SUMMARY".data from rfl]
  have hnm : ∀ ch ∈ '#' :: " SUMMARY".data, ch ≠ '\n' ∧ ch ≠ 'm' := by decide
  rw [subMermaidKw_append hnm]
  rcases hsl4 : splitLines (mermKwScan t3) with _ | ⟨l4, ls4⟩
  · exact absurd hsl4 (splitLines_ne_nil _)
  have hnl' : ∀ ch ∈ '#' :: " SUMMARY".data, ch ≠ '\n' := fun ch hch => (hnm ch hch).1
  rw [splitLines_append_no_newline hnl' hsl4]
  have hL : ∃ m, pyStrip (('#' :: " SUMMARY".data) ++ l4) = '#' :: m := by
    rw [List.cons_append]
    exact pyStrip_cons_not_space (by decide) _
  obtain ⟨m, hm⟩ := hL
  have hA : ¬ (pyStrip (('#' :: " SUMMARY".data) ++ l4) = "```mermaid".data) := by
    rw [hm]
    intro hx
    obtain ⟨h1, -⟩ := List.cons.inj hx
    exact absurd h1 (by decide)
  have hTick : pyStrip (('#' :: " SUMMARY".data) ++ l4) ≠ "```".data := by
    rw [hm]
    intro hx
    obtain ⟨h1, -⟩ := List.cons.inj hx
    exact absurd h1 (by decide)
  have hC : ¬ ("subgraph".data.isPrefixOf
      (pyStrip (('#' :: " SUMMARY".data) ++ l4)) = true ∧ ¬ (false = true)) := by
    rintro ⟨hx, -⟩
    rw [hm, show "subgraph".data = 's' :: "ubgraph".data from rfl] at hx
    simp only [List.isPrefixOf, Bool.and_eq_true, beq_iff_eq] at hx
    exact absurd hx.1 (by decide)
  rw [mermaidLineLoop, if_neg hA, if_neg (by simp), if_neg hC, if_neg (by simp),
    List.nil_append]
  obtain ⟨res, hres⟩ := mermaidLineLoop_head ls4 false _ [] hTick
  rw [hres]
  obtain ⟨t5, ht5⟩ := joinLines_head_append (('#' :: " SUMMARY".data) ++ l4) res
  rw [ht5, List.append_assoc]
  exact List.isPrefixOf_iff_prefix.mpr ⟨l4 ++ t5, rfl⟩

/-- Witness for `clean_model_response_starts_with_heading` at a
concrete response with a preamble. -/
theorem clean_model_response_heading_witness :
    containsSeq sumHeading "Sure, here it is.\n# SUMMARY\nBody".data = true ∧
    sumHeading.isPrefixOf
      (clean_model_response "Sure, here it is.\n# SUMMARY\nBody".data) = true :=
  ⟨by decide, clean_model_response_starts_with_heading _ (by decide)⟩

/-- The main loop processes folders independently: success counts add
across list concatenation. -/
theorem mainSuccessCount_append (tpl : String) (cfg : SummaryConfig)
    (l1 l2 : List FolderEnv) :
    mainSuccessCount tpl cfg (l1 ++ l2) =
      mainSuccessCount tpl cfg l1 + mainSuccessCount tpl cfg l2 := by
  induction l1 with
  | nil => simp [mainSuccessCount]
  | cons env envs ih => simp [mainSuccessCount, ih]; omega

/-- C8: for every matcher, file list and patterns, the two lists
returned by `filter_files` are disjoint, and every file whose basename
matches an include pattern lands in `important_files` regardless of
the exclude patterns. -/
theorem filter_files_disjoint_and_include_priority :
    ∀ (fnmatch : String → String → Bool)
      (files include_patterns exclude_patterns : List String) (f : String),
      (f ∈ (filter_files fnmatch files include_patterns exclude_patterns).1 →
        f ∉ (filter_files fnmatch files include_patterns exclude_patterns).2) ∧
      (f ∈ files →
        (include_patterns.any fun pattern => fnmatch (basename f) pattern) = true →
        f ∈ (filter_files fnmatch files include_patterns exclude_patterns).1) := by
  intro fnmatch files inc exc f
  have h1eq : (filter_files fnmatch files inc exc).1 =
      files.filter (fun fp => inc.any fun pattern => fnmatch (basename fp) pattern) := rfl
  have h2eq : (filter_files fnmatch files inc exc).2 =
      files.filter (fun fp =>
        !(exc.any fun pattern => fnmatch fp pattern || fnmatch (basename fp) pattern) &&
          !((files.filter (fun q =>
              inc.any fun pattern => fnmatch (basename q) pattern)).contains fp)) := rfl
  constructor
  · intro hmem hmem2
    rw [h1eq] at hmem
    rw [h2eq, List.mem_filter] at hmem2
    obtain ⟨-, hcond⟩ := hmem2
    rw [Bool.and_eq_true] at hcond
    obtain ⟨-, hnc⟩ := hcond
    simp at hnc
    rw [List.mem_filter] at hmem
    rcases hnc with hnf | hall
    · exact hnf hmem.1
    · rcases List.any_eq_true.mp hmem.2 with ⟨p, hp, hfp⟩
      rw [hall p hp] at hfp
      exact Bool.false_ne_true hfp
  · intro hf hm
    rw [h1eq, List.mem_filter]
    exact ⟨hf, hm⟩

/-- Witness for `filter_files_disjoint_and_include_priority`: an
include-matched file that also matches an exclude pattern still lands
in the first list and not in the second. -/
theorem filter_files_witness :
    "dir/x.py" ∈ ["dir/x.py"] ∧
    ((["x.py"].any fun pattern => (fun _ _ => true) (basename "dir/x.py") pattern) = true) ∧
    "dir/x.py" ∈
      (filter_files (fun _ _ => true) ["dir/x.py"] ["x.py"] ["dir/x.py"]).1 ∧
    "dir/x.py" ∉
      (filter_files (fun _ _ => true) ["dir/x.py"] ["x.py"] ["dir/x.py"]).2 := by
  refine ⟨by decide, by decide, ?_, ?_⟩
  · exact (filter_files_disjoint_and_include_priority _ _ _ _ "dir/x.py").2
      (by decide) (by decide)
  · exact (filter_files_disjoint_and_include_priority _ _ _ _ "dir/x.py").1
      ((filter_files_disjoint_and_include_priority _ _ _ _ "dir/x.py").2
        (by decide) (by decide))

/-- C5 (amended): per processed folder, `bedrock.converse` is called at
most once: exactly once when the summary file does not already exist
and the folder content summary is truthy, and zero times otherwise. -/
theorem converse_called_at_most_once (env : FolderEnv) (tpl : String) (cfg : SummaryConfig) :
    (generate_summary_file env tpl cfg).2.1 =
      (if env.outputExists then 0 else if optTruthy env.folderContent then 1 else 0) ∧
    (generate_summary_file env tpl cfg).2.1 ≤ 1 := by
  have hswb : (generate_summary_with_bedrock env tpl cfg).2 =
      if optTruthy env.folderContent then 1 else 0 := by
    unfold generate_summary_with_bedrock
    rcases hfc : env.folderContent with _ | c
    · simp [optTruthy]
    · by_cases heq : c = ""
      · simp [heq, optTruthy]
      · have htr : optTruthy (some c) = true := by simp [optTruthy, heq]
        rw [htr]
        simp only [if_neg heq, if_true]
        split <;> rfl
  have hsf : (generate_summary_file env tpl cfg).2.1 =
      if env.outputExists then 0 else (generate_summary_with_bedrock env tpl cfg).2 := by
    unfold generate_summary_file
    rcases ho : env.outputExists with _ | _
    · simp only [Bool.false_eq_true, if_false]
      split
      · next s calls hgs =>
        rw [hgs]
        split <;> rfl
      · next calls hgs =>
        rw [hgs]
    · simp
  rw [hsf, hswb]
  refine ⟨rfl, ?_⟩
  split
  · simp
  · split <;> simp

/-- C5 counterexample: a folder whose summary file already exists is
processed (counted successful) with zero `converse` calls, so the
endpoint is not called once per target folder. -/
theorem converse_skipped_for_existing_summary_counterexample :
    (generate_summary_file skipFolderEnv "template" sampleSummaryConfig).1 = true ∧
    (generate_summary_file skipFolderEnv "template" sampleSummaryConfig).2.1 = 0 ∧
    (0 : Nat) ≠ 1 := by
  refine ⟨rfl, rfl, by decide⟩

/-- C6: a failing `converse` call terminates only that folder's unit of
work and is not retried: `generate_summary_with_bedrock` returns
`None` after its single call, `generate_summary_file` writes nothing
and returns `False`, the folder contributes nothing to
`success_count`, and the main loop's count over the remaining folders
is unchanged. -/
theorem failed_converse_terminates_only_that_folder :
    ∀ (env : FolderEnv) (tpl : String) (cfg : SummaryConfig) (e : String),
      env.outputExists = false →
      optTruthy env.folderContent = true →
      (∀ p, env.converse p = .error e) →
      generate_summary_with_bedrock env tpl cfg = (none, 1) ∧
      generate_summary_file env tpl cfg = (false, 1, none) ∧
      (∀ pre post, mainSuccessCount tpl cfg (pre ++ env :: post) =
        mainSuccessCount tpl cfg pre + mainSuccessCount tpl cfg post) := by
  intro env tpl cfg e ho hc hcv
  rcases hfc : env.folderContent with _ | c
  · rw [hfc] at hc; simp [optTruthy] at hc
  · rw [hfc] at hc
    simp only [optTruthy, ne_eq, decide_eq_true_eq] at hc
    have h1 : generate_summary_with_bedrock env tpl cfg = (none, 1) := by
      unfold generate_summary_with_bedrock
      rw [hfc]
      simp only [if_neg hc, hcv]
    have h2 : generate_summary_file env tpl cfg = (false, 1, none) := by
      unfold generate_summary_file
      rw [if_neg (by simp [ho]), h1]
    refine ⟨h1, h2, ?_⟩
    intro pre post
    rw [mainSuccessCount_append]
    simp [mainSuccessCount, h2]

/-- Witness for `failed_converse_terminates_only_that_folder` at a
concrete failing folder. -/
theorem failed_converse_witness :
    failingFolderEnv.outputExists = false ∧
    optTruthy failingFolderEnv.folderContent = true ∧
    generate_summary_with_bedrock failingFolderEnv "template" sampleSummaryConfig =
      (none, 1) ∧
    generate_summary_file failingFolderEnv "template" sampleSummaryConfig =
      (false, 1, none) ∧
    mainSuccessCount "template" sampleSummaryConfig
        ([skipFolderEnv] ++ failingFolderEnv :: [skipFolderEnv]) =
      mainSuccessCount "template" sampleSummaryConfig [skipFolderEnv] +
        mainSuccessCount "template" sampleSummaryConfig [skipFolderEnv] := by
  have h := failed_converse_terminates_only_that_folder failingFolderEnv "template"
    sampleSummaryConfig "ThrottlingException" rfl (by decide) (fun p => rfl)
  exact ⟨rfl, by decide, h.1, h.2.1, h.2.2 [skipFolderEnv] [skipFolderEnv]⟩

/-- C2 (amended): in the notebook-cell loop a cell's block is appended
only when the counter plus the block's tokens stays within the 190000
budget, so the counter never rises above the larger of its initial
value and the budget; in the python, yaml, terraform, shell and text
loops, provided every file header fits the `190000 - 171000` slack
left by the 90% entry check, the counter stays within the budget. The
markdown loop is exempt: it appends content without the per-block
check (see the counterexample). -/
theorem token_budget_checked_loops :
    (∀ (st : SumSt) (cells : List NbCell),
        (addNbCells st cells).tokens ≤ max st.tokens maxTokensBudget) ∧
    (∀ (fence note : String) (maxLines : Nat) (st : SumSt) (fs : List KeyFile),
        st.tokens ≤ maxTokensBudget →
        (∀ f ∈ fs, ("### " ++ basename f.name ++ "\n\n").length / 4 ≤ 19000) →
        (addCodeFiles fence note maxLines st fs).tokens ≤ maxTokensBudget) := by
  constructor
  · intro st cells
    induction cells generalizing st with
    | nil => exact le_max_left _ _
    | cons cell cells ih =>
      cases cell with
      | otherCell =>
        rw [addNbCells]
        exact ih st
      | markdown cell_content =>
        rw [addNbCells]
        split
        · exact le_max_left _ _
        · next hle =>
          rw [Nat.not_lt] at hle
          refine le_trans (ih _) (max_le ?_ (le_max_right _ _))
          exact le_trans hle (le_max_right _ _)
      | code cell_content =>
        rw [addNbCells]
        split
        · exact le_max_left _ _
        · next hle =>
          rw [Nat.not_lt] at hle
          refine le_trans (ih _) (max_le ?_ (le_max_right _ _))
          exact le_trans hle (le_max_right _ _)
  · intro fence note maxLines st fs hst hhdr
    induction fs generalizing st with
    | nil => exact hst
    | cons f fs ih =>
      rw [addCodeFiles]
      split
      · exact hst
      · split
        · exact ih st hst (fun g hg => hhdr g (List.mem_cons_of_mem f hg))
        · next hentry hcontent =>
          rw [Nat.not_lt] at hentry
          have hhd := hhdr f (List.mem_cons_self f fs)
          have hbudget : maxTokensBudget = 190000 := rfl
          split
          · next hover =>
            refine ih _ ?_ (fun g hg => hhdr g (List.mem_cons_of_mem f hg))
            simp only [] at *
            omega
          · next hok =>
            rw [Nat.not_lt] at hok
            exact ih _ hok (fun g hg => hhdr g (List.mem_cons_of_mem f hg))

/-- Witness for `token_budget_checked_loops` at a concrete python
file. -/
theorem token_budget_checked_loops_witness :
    (0 : Nat) ≤ maxTokensBudget ∧
    (∀ f ∈ [KeyFile.mk "x.py" "print(1)"],
      ("### " ++ basename f.name ++ "\n\n").length / 4 ≤ 19000) ∧
    (addCodeFiles "python" "*Note: Additional files omitted due to token limit*\n\n"
        100000 ⟨"", 0⟩ [KeyFile.mk "x.py" "print(1)"]).tokens ≤ maxTokensBudget :=
  ⟨by decide, by decide,
    token_budget_checked_loops.2 "python"
      "*Note: Additional files omitted due to token limit*\n\n" 100000 ⟨"", 0⟩
      [KeyFile.mk "x.py" "print(1)"] (by decide) (by decide)⟩

/-- With only one markdown file, the content phase reduces to one
markdown step appending the header and the full content with no budget
check. -/
theorem addKeyFileContents_single_md (s : String) (hne : s ≠ "") :
    addKeyFileContents defaultFileSelCfg "" (mdInputs s) =
      ⟨("" : String) ++ ("### " ++ basename "a.md" ++ "\n\n") ++ s ++ "\n\n",
        0 + ("### " ++ basename "a.md" ++ "\n\n").length / 4 + s.length / 4⟩ := by
  have h0 : addKeyFileContents defaultFileSelCfg "" (mdInputs s) =
      addMdFiles ⟨"", 0⟩ [⟨"a.md", s⟩] := rfl
  rw [h0]
  have hread : ¬ (basename (KeyFile.mk "a.md" s).name = "README.md") := by
    show ¬ (basename "a.md" = "README.md")
    decide
  have htok : ¬ ((⟨"", 0⟩ : SumSt).tokens * 20 > maxTokensBudget * 19) := by
    show ¬ ((0 : Nat) * 20 > maxTokensBudget * 19)
    decide
  have hcontent : ¬ ((KeyFile.mk "a.md" s).content = "") := hne
  rw [addMdFiles, if_neg hread, if_neg htok, if_neg hcontent, addMdFiles]

theorem addKeyFileContents_single_md_tokens (s : String) (hne : s ≠ "") :
    (addKeyFileContents defaultFileSelCfg "" (mdInputs s)).tokens =
      0 + ("### " ++ basename "a.md" ++ "\n\n").length / 4 + s.length / 4 := by
  rw [addKeyFileContents_single_md s hne]

theorem addKeyFileContents_single_md_summary (s : String) (hne : s ≠ "") :
    (addKeyFileContents defaultFileSelCfg "" (mdInputs s)).summary =
      ("" : String) ++ ("### " ++ basename "a.md" ++ "\n\n") ++ s ++ "\n\n" := by
  rw [addKeyFileContents_single_md s hne]

theorem mdBig_length : mdBig.length = 760004 := by
  show (List.replicate 760004 'a').length = 760004
  rw [List.length_replicate]

theorem mdBig_ne_empty : mdBig ≠ "" := by
  intro h
  have := congrArg String.length h
  rw [mdBig_length] at this
  exact absurd this (by decide)

/-- C2 counterexample: one markdown file is appended although the
counter plus its estimated tokens (2 header tokens plus 190001 content
tokens from zero) exceeds the 190000 budget; the final counter is
190003 > `max_tokens`, so the content assembly is not size-capped by
the token budget. -/
theorem markdown_token_budget_counterexample :
    (addKeyFileContents defaultFileSelCfg "" (mdInputs mdBig)).tokens = 190003 ∧
    maxTokensBudget < (addKeyFileContents defaultFileSelCfg "" (mdInputs mdBig)).tokens ∧
    (addKeyFileContents defaultFileSelCfg "" (mdInputs mdBig)).summary =
      "### a.md\n\n" ++ mdBig ++ "\n\n" := by
  have h1 : (addKeyFileContents defaultFileSelCfg "" (mdInputs mdBig)).tokens = 190003 := by
    rw [addKeyFileContents_single_md_tokens mdBig mdBig_ne_empty, mdBig_length]
    decide
  refine ⟨h1, by rw [h1]; decide, ?_⟩
  rw [addKeyFileContents_single_md_summary mdBig mdBig_ne_empty]
  have hpfx : (("" : String) ++ ("### " ++ basename "a.md" ++ "\n\n")) = "### a.md\n\n" := by
    decide
  rw [hpfx]
